import Mathlib

/-!
Shallow embedding of the delivery-app order status machinery:
the status registry (`ORDER_STATUSES` in `src/types`), the status
progression engine (`getNextStatusId` in `OrderDetailsScreen.tsx`),
the order mapper (`mapApiOrderToOrder` in `utils/helper.ts`), the
order partition (`filterOrders` in `utils/getapi.ts`), the local
status-update handler (`handleUpdateOrderStatus`), the online toggle
guard (`handleToggleOnlineStatus` in `DashboardScreen`), and the
rejected-orders storage (`RejectedOrdersStorage`).

JavaScript numbers that only ever hold integral status codes, ids,
quantities and amounts are modelled as `Int`; no claim computes on the
monetary or coordinate values, they are only copied.  Registry keys are
the decimal strings of the codes, and every lookup in the source is
`table[n.toString()]`, so the registry is modelled as an association
list keyed by the integer itself.
-/

/-- `OrderStatusInfo` from `src/types` (`id` is the string key, as in the
source). -/
structure OrderStatusInfo where
  id : String
  name : String
  description : String
deriving DecidableEq, Repr

/-- The static status registry `ORDER_STATUSES` from `src/types`,
verbatim. -/
def ORDER_STATUSES : List (Int × OrderStatusInfo) :=
  [ (4,   ⟨"4",   "pending",                "order needs to be confirmed"⟩)
  , (5,   ⟨"5",   "accepted",               "order accepted by restaurant"⟩)
  , (8,   ⟨"8",   "cancelled",              "order cancelled"⟩)
  , (52,  ⟨"52",  "assigned",               "delivery staff assigned"⟩)
  , (53,  ⟨"53",  "started",                "reaching restaurant"⟩)
  , (54,  ⟨"54",  "picked",                 "order picked by delivery person"⟩)
  , (55,  ⟨"55",  "missing_items",          "some items are missing"⟩)
  , (56,  ⟨"56",  "out_for_delivery",       "order is out for delivery"⟩)
  , (57,  ⟨"57",  "reached",                "reached the location"⟩)
  , (58,  ⟨"58",  "delivered",              "order is delivered"⟩)
  , (59,  ⟨"59",  "not_picked",             "customer has not picked the order"⟩)
  , (65,  ⟨"65",  "at_the_restaurant",      "reached the restaurant"⟩)
  , (263, ⟨"263", "customer_not_showed_up", "customer did not show up for pickup"⟩) ]

/-- `ORDER_STATUSES[code.toString()]`: registry lookup, `none` when the
code has no entry. -/
def statusLookup (code : Int) : Option OrderStatusInfo :=
  ORDER_STATUSES.lookup code

/-- The `statusProgression` record literal inside `getNextStatusId`
(`OrderDetailsScreen.tsx`); indexing a JS record returns `undefined` for
an absent key, modelled as `none`. -/
def statusProgression (code : Int) : Option Int :=
  if code = 52 then some 53
  else if code = 53 then some 65
  else if code = 65 then some 54
  else if code = 54 then some 56
  else if code = 56 then some 57
  else if code = 57 then some 58
  else none

/-- `getNextStatusId` (`OrderDetailsScreen.tsx`): the special case for 57
returns 58, otherwise `statusProgression[code] || null`. -/
def getNextStatusId (code : Int) : Option Int :=
  if code = 57 then some 58
  else statusProgression code

/-- Iterate `getNextStatusId` `n` times, `none` absorbing (a terminal
code stays terminal). -/
def iterNext : Nat → Option Int → Option Int
  | 0, s => s
  | n + 1, s => iterNext n (s.bind getNextStatusId)

theorem iterNext_none (n : Nat) : iterNext n none = none := by
  induction n with
  | zero => rfl
  | succ n ih => simpa [iterNext] using ih

theorem getNextStatusId_eq_none_of_not_mem {code : Int}
    (h : code ∉ ([52, 53, 65, 54, 56, 57] : List Int)) :
    getNextStatusId code = none := by
  simp only [List.mem_cons, List.not_mem_nil, or_false, not_or] at h
  obtain ⟨h52, h53, h65, h54, h56, h57⟩ := h
  simp [getNextStatusId, statusProgression, h52, h53, h65, h54, h56, h57]

/-- C1: `getNextStatusId` returns exactly the declared successor for each
key of the progression table (52→53, 53→65, 65→54, 54→56, 56→57, 57→58)
and `none` for every other integer code. -/
theorem getNextStatusId_spec :
    getNextStatusId 52 = some 53 ∧ getNextStatusId 53 = some 65 ∧
    getNextStatusId 65 = some 54 ∧ getNextStatusId 54 = some 56 ∧
    getNextStatusId 56 = some 57 ∧ getNextStatusId 57 = some 58 ∧
    ∀ code : Int, code ∉ ([52, 53, 65, 54, 56, 57] : List Int) →
      getNextStatusId code = none := by
  exact ⟨rfl, rfl, rfl, rfl, rfl, rfl,
    fun _ h => getNextStatusId_eq_none_of_not_mem h⟩

/-- Witness for C1 at the concrete codes 58, 263 and 4. -/
theorem getNextStatusId_spec_witness :
    getNextStatusId 58 = none ∧ getNextStatusId 263 = none ∧
    getNextStatusId 4 = none := by
  refine ⟨?_, ?_, ?_⟩
  · exact getNextStatusId_spec.2.2.2.2.2.2 58 (by decide)
  · exact getNextStatusId_spec.2.2.2.2.2.2 263 (by decide)
  · exact getNextStatusId_spec.2.2.2.2.2.2 4 (by decide)

theorem statusLookup_isSome_of_getNext {code next : Int}
    (h : getNextStatusId code = some next) :
    (statusLookup next).isSome = true := by
  by_cases hm : code ∈ ([52, 53, 65, 54, 56, 57] : List Int)
  · simp only [List.mem_cons, List.not_mem_nil, or_false] at hm
    rcases hm with rfl | rfl | rfl | rfl | rfl | rfl <;>
      · simp only [getNextStatusId, statusProgression, Int.reduceEq,
          reduceIte, Option.some.injEq] at h
        subst h
        decide
  · rw [getNextStatusId_eq_none_of_not_mem hm] at h
    exact absurd h (by simp)

/-- C10: the progression table is acyclic and terminating — six successful
transitions from 52 walk 53, 65, 54, 56, 57, 58, and one more query
yields `none`; from every integer code seven iterated queries yield
`none`; and every code in the range of `getNextStatusId` has an
`ORDER_STATUSES` registry entry. -/
theorem progression_terminates :
    (∀ code : Int, iterNext 7 (some code) = none) ∧
    (iterNext 1 (some 52) = some 53 ∧ iterNext 2 (some 52) = some 65 ∧
     iterNext 3 (some 52) = some 54 ∧ iterNext 4 (some 52) = some 56 ∧
     iterNext 5 (some 52) = some 57 ∧ iterNext 6 (some 52) = some 58) ∧
    (∀ code next : Int, getNextStatusId code = some next →
      (statusLookup next).isSome = true) := by
  refine ⟨?_, ⟨by decide, by decide, by decide, by decide, by decide, by decide⟩, ?_⟩
  · intro code
    by_cases hm : code ∈ ([52, 53, 65, 54, 56, 57] : List Int)
    · simp only [List.mem_cons, List.not_mem_nil, or_false] at hm
      rcases hm with rfl | rfl | rfl | rfl | rfl | rfl <;> decide
    · have h0 : getNextStatusId code = none := getNextStatusId_eq_none_of_not_mem hm
      simp [iterNext, h0, iterNext_none]
  · exact fun _ _ h => statusLookup_isSome_of_getNext h

/-- Witness for C10 at code 52: the transition 52 → 53 exists and 53 has a
registry entry. -/
theorem progression_terminates_witness :
    (statusLookup 53).isSome = true :=
  progression_terminates.2.2 52 53 (by decide)

/-- Payment methods: the closed union type of `Order.paymentMethod`
(`'cash' | 'card' | 'upi'` in `src/types`). -/
inductive PaymentMethod where
  | cash
  | card
  | upi
deriving DecidableEq, Repr

/-- `ApiItem` from `utils/helper.ts`. -/
structure ApiItem where
  itemId : Int
  itemname : String
  quantity : Int
  itemPrice : Int
  itemInstruction : Option String
deriving DecidableEq, Repr

/-- `ApiOrder` from `utils/helper.ts`. -/
structure ApiOrder where
  id : Int
  orderId : String
  statusId : Int
  statusName : String
  custName : Option String
  customerContactNo : String
  restaurantName : String
  resAddress : String
  customerDeliveryAddress : String
  items : List ApiItem
  amount : Int
  generalInstruction : Option String
  paymentTypeName : String
  resLat : Int
  resLog : Int
  cLat : Int
  cLog : Int
  orderDate : String
  orderTime : String
  vendorAcceptedTimeInUTC : Option String
  dsAssignedTimeInUTC : Option String
  deliveredTime : Option String
deriving DecidableEq, Repr

/-- `OrderItem` from `src/types`. -/
structure OrderItem where
  id : String
  name : String
  quantity : Int
  price : Int
  customizations : Option (List String)
deriving DecidableEq, Repr

/-- `Location` from `src/types`. -/
structure Location where
  latitude : Int
  longitude : Int
  address : String
deriving DecidableEq, Repr

/-- `Order` from `src/types`.  The TS type declares `status :
OrderStatus`, but `mapApiOrderToOrder` assigns `statusInfo?.name` which
is `undefined` when the registry has no entry for the code, so the field
is modelled as `Option String` to capture the value actually stored. -/
structure Order where
  id : String
  orderNumber : String
  status : Option String
  statusId : Int
  customerName : Option String
  customerPhone : String
  restaurantName : String
  restaurantAddress : String
  deliveryAddress : String
  items : List OrderItem
  totalAmount : Int
  deliveryFee : Int
  distance : Option Int
  estimatedTime : Option Int
  pickupLocation : Location
  dropLocation : Location
  createdAt : String
  acceptedAt : Option String
  pickedAt : Option String
  deliveredAt : Option String
  specialInstructions : Option String
  paymentMethod : PaymentMethod
deriving DecidableEq, Repr

/-- JS `String.prototype.toLowerCase()`, modelled character-wise over the
string's characters (the inputs compared by the source are ASCII). -/
def toLowerJS (s : String) : String :=
  ⟨s.data.map Char.toLower⟩

/-- JS `String.prototype.trim()`: strip leading and trailing whitespace. -/
def trimJS (s : String) : String :=
  ⟨((s.data.dropWhile Char.isWhitespace).reverse.dropWhile
      Char.isWhitespace).reverse⟩

/-- JS `x || undefined` on a `string | null | undefined` value: `null`,
`undefined` and the empty string are falsy and give `undefined`. -/
def jsOrUndefined : Option String → Option String
  | some v => if v = "" then none else some v
  | none => none

/-- The `paymentMethod` normalization switch inside `mapApiOrderToOrder`
(`utils/helper.ts`): lowercase the raw string, `'pay on delivery'` and
`'cash'` map to cash, `'card'` to card, `'upi'` to upi, anything else
falls back to cash. -/
def normalizePaymentMethod (raw : String) : PaymentMethod :=
  let t := toLowerJS raw
  if t = "pay on delivery" then PaymentMethod.cash
  else if t = "cash" then PaymentMethod.cash
  else if t = "card" then PaymentMethod.card
  else if t = "upi" then PaymentMethod.upi
  else PaymentMethod.cash

/-- `mapApiItemToOrderItem` (`utils/helper.ts`); the JS conditional
`i.itemInstruction ? [i.itemInstruction] : undefined` treats `null`,
`undefined` and `""` as falsy. -/
def mapApiItemToOrderItem (i : ApiItem) : OrderItem :=
  { id := toString i.itemId
  , name := trimJS i.itemname
  , quantity := i.quantity
  , price := i.itemPrice
  , customizations :=
      match i.itemInstruction with
      | some s => if s = "" then none else some [s]
      | none => none }

/-- `mapApiOrderToOrder` (`utils/helper.ts`): a total function — the
status lookup uses optional chaining (`statusInfo?.name`), so an
unregistered code yields an order whose `status` is `none`, never a
failure. -/
def mapApiOrderToOrder (a : ApiOrder) : Order :=
  { id := toString a.id
  , orderNumber := a.orderId
  , status := (statusLookup a.statusId).map OrderStatusInfo.name
  , statusId := a.statusId
  , customerName := jsOrUndefined a.custName
  , customerPhone := a.customerContactNo
  , restaurantName := a.restaurantName
  , restaurantAddress := a.resAddress
  , deliveryAddress := a.customerDeliveryAddress
  , items := a.items.map mapApiItemToOrderItem
  , totalAmount := a.amount
  , deliveryFee := 5
  , distance := none
  , estimatedTime := none
  , pickupLocation := ⟨a.resLat, a.resLog, a.resAddress⟩
  , dropLocation := ⟨a.cLat, a.cLog, a.customerDeliveryAddress⟩
  , createdAt := a.orderDate ++ "T" ++ a.orderTime
  , acceptedAt := jsOrUndefined a.vendorAcceptedTimeInUTC
  , pickedAt := jsOrUndefined a.dsAssignedTimeInUTC
  , deliveredAt := jsOrUndefined a.deliveredTime
  , specialInstructions := jsOrUndefined a.generalInstruction
  , paymentMethod := normalizePaymentMethod a.paymentTypeName }

/-- Written from the spec's words (§4.2), for comparison with the source
mapper: the spec demands that mapping fail with `UnknownStatus` when the
raw status code is absent from the registry. -/
def mapApiOrderToOrderPerSpec (a : ApiOrder) : Except String Order :=
  match statusLookup a.statusId with
  | none => Except.error "UnknownStatus"
  | some info => Except.ok { mapApiOrderToOrder a with status := some info.name }

/-- C7: payment-method normalization is total into {cash, card, upi},
depends only on the lowercased input (case-insensitive comparison), and
maps every unrecognized string to cash. -/
theorem normalizePaymentMethod_spec :
    (∀ s : String, normalizePaymentMethod s = PaymentMethod.cash ∨
      normalizePaymentMethod s = PaymentMethod.card ∨
      normalizePaymentMethod s = PaymentMethod.upi) ∧
    (∀ s t : String, toLowerJS s = toLowerJS t →
      normalizePaymentMethod s = normalizePaymentMethod t) ∧
    (∀ s : String,
      toLowerJS s ∉ (["pay on delivery", "cash", "card", "upi"] : List String) →
      normalizePaymentMethod s = PaymentMethod.cash) := by
  refine ⟨?_, ?_, ?_⟩
  · intro s
    cases h : normalizePaymentMethod s <;> simp
  · intro s t h
    simp only [normalizePaymentMethod]
    rw [h]
  · intro s h
    simp only [List.mem_cons, List.not_mem_nil, or_false, not_or] at h
    obtain ⟨h1, h2, h3, h4⟩ := h
    simp [normalizePaymentMethod, h1, h2, h3, h4]

/-- Witness for C7: `"Pay On Delivery"` matches case-insensitively, and
`"bitcoin"` falls back to cash. -/
theorem normalizePaymentMethod_spec_witness :
    normalizePaymentMethod "Pay On Delivery" =
      normalizePaymentMethod "pay on delivery" ∧
    normalizePaymentMethod "bitcoin" = PaymentMethod.cash :=
  ⟨normalizePaymentMethod_spec.2.1 "Pay On Delivery" "pay on delivery" (by decide),
   normalizePaymentMethod_spec.2.2 "bitcoin" (by decide)⟩

/-- A concrete raw order whose status code 999 has no registry entry. -/
def rawOrderUnknownStatus : ApiOrder :=
  { id := 101
  , orderId := "ORD-101"
  , statusId := 999
  , statusName := "mystery"
  , custName := some "Asha"
  , customerContactNo := "9876543210"
  , restaurantName := "Biryani House"
  , resAddress := "1 MG Road"
  , customerDeliveryAddress := "7 Park St"
  , items := [⟨1, "Veg Biryani", 2, 120, none⟩]
  , amount := 240
  , generalInstruction := none
  , paymentTypeName := "Cash"
  , resLat := 17
  , resLog := 78
  , cLat := 17
  , cLog := 78
  , orderDate := "2025-07-01"
  , orderTime := "10:10:00"
  , vendorAcceptedTimeInUTC := none
  , dsAssignedTimeInUTC := none
  , deliveredTime := none }

/-- A concrete raw order with the registered status code 52. -/
def rawOrderAssigned : ApiOrder :=
  { rawOrderUnknownStatus with
      id := 102, orderId := "ORD-102", statusId := 52, statusName := "assigned" }

/-- A concrete raw order with the registered status code 58. -/
def rawOrderDelivered : ApiOrder :=
  { rawOrderUnknownStatus with
      id := 103, orderId := "ORD-103", statusId := 58, statusName := "delivered"
    , deliveredTime := some "2025-07-01T11:00:00Z" }

/-- C2 counterexample: for the raw order with unregistered status 999 the
spec demands an `UnknownStatus` failure, but `mapApiOrderToOrder` is
total and succeeds, producing an order whose `status` is merely unset;
the batch map keeps both orders. -/
theorem mapper_unknown_status_counterexample :
    statusLookup 999 = none ∧
    mapApiOrderToOrderPerSpec rawOrderUnknownStatus =
      Except.error "UnknownStatus" ∧
    (mapApiOrderToOrder rawOrderUnknownStatus).status = none ∧
    (mapApiOrderToOrder rawOrderUnknownStatus).statusId = 999 ∧
    ([rawOrderUnknownStatus, rawOrderAssigned].map mapApiOrderToOrder).length = 2 :=
  ⟨rfl, rfl, rfl, rfl, rfl⟩

/-- C2 amended: mapping an order whose status code has no registry entry
does not fail — it yields an order with `status` unset (`none`) and the
raw code preserved; the batch map is per-item and total, so every order
in the batch still maps. -/
theorem mapper_unknown_status_amended :
    (∀ a : ApiOrder, statusLookup a.statusId = none →
      (mapApiOrderToOrder a).status = none ∧
      (mapApiOrderToOrder a).statusId = a.statusId) ∧
    (∀ l : List ApiOrder, (l.map mapApiOrderToOrder).length = l.length) ∧
    (∀ (l : List ApiOrder) (a : ApiOrder), a ∈ l →
      mapApiOrderToOrder a ∈ l.map mapApiOrderToOrder) := by
  refine ⟨?_, ?_, ?_⟩
  · intro a h
    exact ⟨by simp [mapApiOrderToOrder, h], rfl⟩
  · intro l
    simp
  · intro l a h
    exact List.mem_map_of_mem _ h

/-- Witness for C2 (amended) at the concrete 999 order and a two-order
batch. -/
theorem mapper_unknown_status_amended_witness :
    (mapApiOrderToOrder rawOrderUnknownStatus).status = none ∧
    mapApiOrderToOrder rawOrderAssigned ∈
      [rawOrderUnknownStatus, rawOrderAssigned].map mapApiOrderToOrder :=
  ⟨(mapper_unknown_status_amended.1 rawOrderUnknownStatus (by decide)).1,
   mapper_unknown_status_amended.2.2 [rawOrderUnknownStatus, rawOrderAssigned]
     rawOrderAssigned (by simp)⟩

/-- `filterOrders` (`utils/getapi.ts`): `currentOrders` are the orders
with `statusId !== 58`, `pastOrders` those with `statusId === 58`. -/
def filterOrders (orders : List Order) : List Order × List Order :=
  (orders.filter fun o => o.statusId != 58,
   orders.filter fun o => o.statusId == 58)

theorem filterOrders_count_aux (o : Order) (orders : List Order) :
    ((orders.filter fun x => x.statusId != 58).count o) +
      ((orders.filter fun x => x.statusId == 58).count o) =
      orders.count o := by
  induction orders with
  | nil => rfl
  | cons x xs ih =>
    by_cases h58 : x.statusId = 58
    · have e1 : ((x :: xs).filter fun y => y.statusId != 58) =
          xs.filter fun y => y.statusId != 58 := by
        simp [List.filter_cons, h58]
      have e2 : ((x :: xs).filter fun y => y.statusId == 58) =
          x :: xs.filter fun y => y.statusId == 58 := by
        simp [List.filter_cons, h58]
      rw [e1, e2]
      rcases eq_or_ne x o with rfl | hxo
      · rw [List.count_cons_self, List.count_cons_self]
        omega
      · rw [List.count_cons_of_ne (Ne.symm hxo),
          List.count_cons_of_ne (Ne.symm hxo)]
        omega
    · have e1 : ((x :: xs).filter fun y => y.statusId != 58) =
          x :: xs.filter fun y => y.statusId != 58 := by
        simp [List.filter_cons, h58]
      have e2 : ((x :: xs).filter fun y => y.statusId == 58) =
          xs.filter fun y => y.statusId == 58 := by
        simp [List.filter_cons, h58]
      rw [e1, e2]
      rcases eq_or_ne x o with rfl | hxo
      · rw [List.count_cons_self, List.count_cons_self]
        omega
      · rw [List.count_cons_of_ne (Ne.symm hxo),
          List.count_cons_of_ne (Ne.symm hxo)]
        omega

/-- C3: `filterOrders` is an exhaustive, disjoint partition — an order is
in `pastOrders` iff it occurs in the input with `statusId = 58`, in
`currentOrders` iff it occurs with `statusId ≠ 58`, every input order
lands in exactly one side, and occurrence counts are preserved. -/
theorem filterOrders_partition (orders : List Order) :
    (∀ o : Order, o ∈ (filterOrders orders).2 ↔ o ∈ orders ∧ o.statusId = 58) ∧
    (∀ o : Order, o ∈ (filterOrders orders).1 ↔ o ∈ orders ∧ o.statusId ≠ 58) ∧
    (∀ o ∈ orders,
      (o ∈ (filterOrders orders).1 ∧ o ∉ (filterOrders orders).2) ∨
      (o ∈ (filterOrders orders).2 ∧ o ∉ (filterOrders orders).1)) ∧
    (∀ o : Order,
      (filterOrders orders).1.count o + (filterOrders orders).2.count o =
        orders.count o) := by
  have hpast : ∀ o : Order,
      o ∈ (filterOrders orders).2 ↔ o ∈ orders ∧ o.statusId = 58 := by
    intro o
    simp [filterOrders, List.mem_filter]
  have hcur : ∀ o : Order,
      o ∈ (filterOrders orders).1 ↔ o ∈ orders ∧ o.statusId ≠ 58 := by
    intro o
    simp [filterOrders, List.mem_filter]
  refine ⟨hpast, hcur, ?_, fun o => filterOrders_count_aux o orders⟩
  intro o ho
  by_cases h58 : o.statusId = 58
  · exact Or.inr ⟨(hpast o).mpr ⟨ho, h58⟩, fun hc => (((hcur o).mp hc).2) h58⟩
  · exact Or.inl ⟨(hcur o).mpr ⟨ho, h58⟩, fun hp => h58 ((hpast o).mp hp).2⟩

/-- Witness for C3 on a concrete two-order batch: the delivered order
(58) lands in `pastOrders`, the assigned order (52) in `currentOrders`. -/
theorem filterOrders_partition_witness :
    mapApiOrderToOrder rawOrderDelivered ∈
      (filterOrders [mapApiOrderToOrder rawOrderAssigned,
                     mapApiOrderToOrder rawOrderDelivered]).2 ∧
    mapApiOrderToOrder rawOrderAssigned ∈
      (filterOrders [mapApiOrderToOrder rawOrderAssigned,
                     mapApiOrderToOrder rawOrderDelivered]).1 :=
  ⟨((filterOrders_partition [mapApiOrderToOrder rawOrderAssigned,
        mapApiOrderToOrder rawOrderDelivered]).1
      (mapApiOrderToOrder rawOrderDelivered)).mpr ⟨by simp, by decide⟩,
   ((filterOrders_partition [mapApiOrderToOrder rawOrderAssigned,
        mapApiOrderToOrder rawOrderDelivered]).2.1
      (mapApiOrderToOrder rawOrderAssigned)).mpr ⟨by simp, by decide⟩⟩

/-- The guard of `handleStatusCardPress` (`OrderDetailsScreen.tsx`): the
status-update modal opens only when `order.statusId >= 52`. -/
def canOpenStatusModal (o : Order) : Bool :=
  o.statusId ≥ 52

/-- The `disabled` prop of the status card (`OrderDetailsScreen.tsx`):
the touchable is disabled when `order.statusId < 52`. -/
def statusCardDisabled (o : Order) : Bool :=
  o.statusId < 52

/-- C8: the status-update control is offered iff `statusId ≥ 52` — the
press guard opens the modal exactly at or above the claim threshold, the
card is disabled exactly below it, and the two conditions are
complementary. -/
theorem canDisplayStatusControl_spec (o : Order) :
    (canOpenStatusModal o = true ↔ 52 ≤ o.statusId) ∧
    (statusCardDisabled o = true ↔ o.statusId < 52) ∧
    canOpenStatusModal o = !statusCardDisabled o := by
  refine ⟨by simp [canOpenStatusModal], by simp [statusCardDisabled], ?_⟩
  by_cases h : o.statusId < 52
  · simp [canOpenStatusModal, statusCardDisabled, h, not_le.mpr h]
  · simp [canOpenStatusModal, statusCardDisabled, h, not_lt.mp h]

/-- The observable outcome of one run of `handleUpdateOrderStatus`
(`OrderDetailsScreen.tsx`): the local `order` state, whether the
`orderUpdated` bus event was emitted, and which alert was shown. -/
structure UpdateRunResult where
  order : Option Order
  emittedOrderUpdated : Bool
  errorAlertShown : Bool
  successAlertShown : Bool
deriving DecidableEq, Repr

/-- `handleUpdateOrderStatus` (`OrderDetailsScreen.tsx`), the backend call
`updatestatusId` abstracted by its outcome `backendOk` (`true` = the
awaited call resolves, `false` = it throws).  Guards: no order or no next
status returns without touching anything.  Only the success continuation
builds the updated order — `statusId` and `status` in one object, the
name from the registry with fallback to the old name — stores it, emits
`orderUpdated` and shows the success alert; the catch branch shows the
error alert and leaves the local order unchanged. -/
def handleUpdateOrderStatus (order : Option Order) (backendOk : Bool) :
    UpdateRunResult :=
  match order with
  | none => ⟨none, false, false, false⟩
  | some o =>
    match getNextStatusId o.statusId with
    | none => ⟨some o, false, false, false⟩
    | some nextStatusId =>
      if backendOk then
        let nextStatusName := (statusLookup nextStatusId).map OrderStatusInfo.name
        let updatedOrder :=
          { o with
              statusId := nextStatusId
            , status :=
                match nextStatusName with
                | some n => some n
                | none => o.status }
        ⟨some updatedOrder, true, false, true⟩
      else
        ⟨some o, false, true, false⟩

/-- C5: `handleUpdateOrderStatus` is atomic with respect to local state —
on backend failure the order is unchanged, no event is emitted and the
error is surfaced; on backend success the stored order carries the new
`statusId` and the matching registry status name together (the name
exists for every reachable next code) and the `orderUpdated` event is
emitted. -/
theorem handleUpdateOrderStatus_atomic (o : Order) (next : Int)
    (h : getNextStatusId o.statusId = some next) :
    handleUpdateOrderStatus (some o) false =
      ⟨some o, false, true, false⟩ ∧
    handleUpdateOrderStatus (some o) true =
      ⟨some { o with
                statusId := next
              , status := (statusLookup next).map OrderStatusInfo.name },
        true, false, true⟩ ∧
    ((statusLookup next).map OrderStatusInfo.name).isSome = true := by
  have hs : (statusLookup next).isSome = true := statusLookup_isSome_of_getNext h
  obtain ⟨info, hinfo⟩ := Option.isSome_iff_exists.mp hs
  refine ⟨by simp [handleUpdateOrderStatus, h], ?_, by simp [hinfo]⟩
  simp [handleUpdateOrderStatus, h, hinfo]

/-- Witness for C5 at the concrete assigned order (statusId 52, next 53):
backend failure leaves it unchanged with the error alert and no event;
backend success stores statusId 53 with status "started". -/
theorem handleUpdateOrderStatus_atomic_witness :
    handleUpdateOrderStatus (some (mapApiOrderToOrder rawOrderAssigned)) false =
      ⟨some (mapApiOrderToOrder rawOrderAssigned), false, true, false⟩ ∧
    ((statusLookup 53).map OrderStatusInfo.name).isSome = true :=
  ⟨(handleUpdateOrderStatus_atomic (mapApiOrderToOrder rawOrderAssigned) 53
      (by decide)).1,
   (handleUpdateOrderStatus_atomic (mapApiOrderToOrder rawOrderAssigned) 53
      (by decide)).2.2⟩

/-- The observable outcome of one run of `handleToggleOnlineStatus`
(`DashboardScreen`): the resulting online flag and whether the "Cannot Go
Offline" alert was shown. -/
structure ToggleRunResult where
  isOnline : Bool
  blockedAlertShown : Bool
deriving DecidableEq, Repr

/-- `handleToggleOnlineStatus` (`DashboardScreen`), the location capture on
going online elided (it does not affect the online flag): a request to go
offline while some active order has statusId 52 shows the alert and
returns before dispatching, so the flag keeps its current value;
otherwise `setOnlineStatus(value)` is dispatched. -/
def handleToggleOnlineStatus (activeOrders : List Order) (isOnline : Bool)
    (value : Bool) : ToggleRunResult :=
  if value = false ∧ 0 < activeOrders.length then
    if 0 < (activeOrders.filter fun o => o.statusId == 52).length then
      ⟨isOnline, true⟩
    else
      ⟨value, false⟩
  else
    ⟨value, false⟩

/-- C9: while the courier is online and holds an active order with
statusId 52, a request to go offline is rejected with the blocking alert
and the online flag stays true; conversely the handler never returns an
offline flag while such an order is in the active list. -/
theorem offline_blocked_with_assigned_order :
    (∀ activeOrders : List Order,
      (∃ o ∈ activeOrders, o.statusId = 52) →
      handleToggleOnlineStatus activeOrders true false = ⟨true, true⟩) ∧
    (∀ (activeOrders : List Order) (value : Bool),
      (handleToggleOnlineStatus activeOrders true value).isOnline = false →
      ∀ o ∈ activeOrders, o.statusId ≠ 52) := by
  constructor
  · rintro activeOrders ⟨o, ho, h52⟩
    have hlen : 0 < activeOrders.length := List.length_pos_of_mem ho
    have hfil : 0 < (activeOrders.filter fun x => x.statusId == 52).length :=
      List.length_pos_of_mem (List.mem_filter.mpr ⟨ho, by simp [h52]⟩)
    simp [handleToggleOnlineStatus, hlen, hfil]
  · intro activeOrders value h o ho h52
    have hlen : 0 < activeOrders.length := List.length_pos_of_mem ho
    have hfil : 0 < (activeOrders.filter fun x => x.statusId == 52).length :=
      List.length_pos_of_mem (List.mem_filter.mpr ⟨ho, by simp [h52]⟩)
    cases hv : value with
    | false =>
      rw [hv] at h
      simp [handleToggleOnlineStatus, hlen, hfil] at h
    | true =>
      rw [hv] at h
      simp [handleToggleOnlineStatus] at h

/-- Witness for C9: with the single assigned order (statusId 52) in the
active list, toggling offline is blocked and the flag stays true. -/
theorem offline_blocked_with_assigned_order_witness :
    handleToggleOnlineStatus [mapApiOrderToOrder rawOrderAssigned] true false =
      ⟨true, true⟩ :=
  offline_blocked_with_assigned_order.1 [mapApiOrderToOrder rawOrderAssigned]
    ⟨mapApiOrderToOrder rawOrderAssigned, by simp, by decide⟩

/-- Milliseconds per day, the divisor in `isDateOlderThan3Days`
(`rejectedOrdersStorage`). -/
def msPerDay : Int := 86400000

/-- JS `Math.ceil(a / b)` for integer `a` and positive integer `b`. -/
def jsMathCeilDiv (a b : Int) : Int :=
  -(Int.fdiv (-a) b)

/-- `RejectedOrdersData` (`rejectedOrdersStorage`).  Time is modelled in
milliseconds since the epoch.  The stored `date` string is
`new Date().toISOString().split('T')[0]` — the UTC calendar day — so it
is modelled as the UTC day index `nowMs fdiv msPerDay`; re-parsing it
with `new Date(dateString)` yields the UTC midnight timestamp
`date * msPerDay`. -/
structure RejectedOrdersData where
  date : Int
  orderIds : List String
deriving DecidableEq, Repr

/-- `getCurrentDateString()` (`rejectedOrdersStorage`): the UTC calendar
day of `nowMs`. -/
def getCurrentDateString (nowMs : Int) : Int :=
  Int.fdiv nowMs msPerDay

/-- `isDateOlderThan3Days` (`rejectedOrdersStorage`): `diffTime` is the
elapsed time from the record date's UTC midnight to now, `diffDays` its
`Math.ceil` in days, and the record is old when `diffDays > 3`. -/
def isDateOlderThan3Days (dateDay nowMs : Int) : Bool :=
  let diffTime := nowMs - dateDay * msPerDay
  let diffDays := jsMathCeilDiv diffTime msPerDay
  diffDays > 3

/-- JS `[...new Set(l)]`: deduplicate keeping the first occurrence of
each element, in insertion order. -/
def dedupJS (l : List String) : List String :=
  l.foldl (fun acc x => if x ∈ acc then acc else acc ++ [x]) []

/-- `addRejectedOrder` (`rejectedOrdersStorage`): same stored date —
append and deduplicate; different date or empty slot — replace the
record wholesale with today's single id. -/
def addRejectedOrder (existing : Option RejectedOrdersData) (nowMs : Int)
    (orderId : String) : RejectedOrdersData :=
  let currentDate := getCurrentDateString nowMs
  match existing with
  | some d =>
    if d.date = currentDate then
      ⟨currentDate, dedupJS (d.orderIds ++ [orderId])⟩
    else
      ⟨currentDate, [orderId]⟩
  | none => ⟨currentDate, [orderId]⟩

/-- `getRejectedOrderIds` (`rejectedOrdersStorage`): returns the ids and
the persisted slot after the read; a record older than 3 days is cleared
(`clearRejectedOrders` removes the key, modelled by `none`). -/
def getRejectedOrderIds (stored : Option RejectedOrdersData) (nowMs : Int) :
    List String × Option RejectedOrdersData :=
  match stored with
  | none => ([], none)
  | some d =>
    if isDateOlderThan3Days d.date nowMs then ([], none)
    else (d.orderIds, some d)

theorem isDateOlderThan3Days_iff (dateDay nowMs : Int) :
    isDateOlderThan3Days dateDay nowMs = true ↔
      (dateDay + 3) * msPerDay < nowMs := by
  unfold isDateOlderThan3Days jsMathCeilDiv msPerDay
  simp only [decide_eq_true_eq, gt_iff_lt]
  rw [Int.fdiv_eq_ediv _ (by norm_num)]
  omega

/-- C4 counterexample: a record dated exactly 3 calendar days ago is NOT
always retained — at one millisecond past UTC midnight of day 3, the
record dated day 0 (calendar-day difference exactly 3) is cleared and
the read returns the empty list. -/
theorem listActive_expiry_counterexample :
    getCurrentDateString (3 * msPerDay + 1) - (0 : Int) = 3 ∧
    getRejectedOrderIds (some ⟨0, ["ORD-101"]⟩) (3 * msPerDay + 1) =
      ([], none) := by
  exact ⟨by decide, by decide⟩

/-- C4 amended: the read clears the record and returns the empty list
exactly when `now` is strictly past the UTC midnight 72 hours after the
record date's midnight (elapsed time with `Math.ceil`, not calendar-day
difference).  Hence a record dated 4 or more calendar days ago always
clears on read, a record dated at most 2 calendar days ago is always
retained, and a record dated exactly 3 calendar days ago is cleared at
any instant after UTC midnight. -/
theorem listActive_expiry :
    (∀ (d : RejectedOrdersData) (nowMs : Int),
      getRejectedOrderIds (some d) nowMs =
        if (d.date + 3) * msPerDay < nowMs then ([], none)
        else (d.orderIds, some d)) ∧
    (∀ (d : RejectedOrdersData) (nowMs : Int),
      4 ≤ getCurrentDateString nowMs - d.date →
      getRejectedOrderIds (some d) nowMs = ([], none)) ∧
    (∀ (d : RejectedOrdersData) (nowMs : Int),
      getCurrentDateString nowMs - d.date ≤ 2 →
      getRejectedOrderIds (some d) nowMs = (d.orderIds, some d)) := by
  refine ⟨?_, ?_, ?_⟩
  · intro d nowMs
    by_cases hc : (d.date + 3) * msPerDay < nowMs
    · simp [getRejectedOrderIds, (isDateOlderThan3Days_iff d.date nowMs).mpr hc, hc]
    · have hfalse : isDateOlderThan3Days d.date nowMs = false := by
        rw [← Bool.not_eq_true, isDateOlderThan3Days_iff]
        exact hc
      simp [getRejectedOrderIds, hfalse, hc]
  · intro d nowMs h4
    have hc : (d.date + 3) * msPerDay < nowMs := by
      rw [getCurrentDateString, Int.fdiv_eq_ediv _ (by decide)] at h4
      unfold msPerDay at h4 ⊢
      omega
    simp [getRejectedOrderIds, (isDateOlderThan3Days_iff d.date nowMs).mpr hc]
  · intro d nowMs h2
    have hc : ¬ (d.date + 3) * msPerDay < nowMs := by
      rw [getCurrentDateString, Int.fdiv_eq_ediv _ (by decide)] at h2
      unfold msPerDay at h2 ⊢
      omega
    have hfalse : isDateOlderThan3Days d.date nowMs = false := by
      rw [← Bool.not_eq_true, isDateOlderThan3Days_iff]
      exact hc
    simp [getRejectedOrderIds, hfalse]

/-- Witness for C4 (amended): a record dated day 0 read at day 4 noon is
cleared; a record dated day 0 read at day 2 noon is retained. -/
theorem listActive_expiry_witness :
    getRejectedOrderIds (some ⟨0, ["ORD-101"]⟩) (4 * msPerDay + 43200000) =
      ([], none) ∧
    getRejectedOrderIds (some ⟨0, ["ORD-101"]⟩) (2 * msPerDay + 43200000) =
      (["ORD-101"], some ⟨0, ["ORD-101"]⟩) :=
  ⟨listActive_expiry.2.1 ⟨0, ["ORD-101"]⟩ (4 * msPerDay + 43200000) (by decide),
   listActive_expiry.2.2 ⟨0, ["ORD-101"]⟩ (2 * msPerDay + 43200000) (by decide)⟩

theorem mem_foldl_dedup (l : List String) :
    ∀ (acc : List String) (x : String),
      x ∈ l.foldl (fun acc y => if y ∈ acc then acc else acc ++ [y]) acc ↔
        x ∈ acc ∨ x ∈ l := by
  induction l with
  | nil => simp
  | cons y l ih =>
    intro acc x
    rw [List.foldl_cons, ih]
    by_cases hy : y ∈ acc
    · simp only [if_pos hy, List.mem_cons]
      constructor
      · rintro (hx | hx)
        · exact Or.inl hx
        · exact Or.inr (Or.inr hx)
      · rintro (hx | rfl | hx)
        · exact Or.inl hx
        · exact Or.inl hy
        · exact Or.inr hx
    · simp only [if_neg hy, List.mem_append, List.mem_singleton, List.mem_cons]
      tauto

theorem nodup_foldl_dedup (l : List String) :
    ∀ acc : List String, acc.Nodup →
      (l.foldl (fun acc y => if y ∈ acc then acc else acc ++ [y]) acc).Nodup := by
  induction l with
  | nil => simp
  | cons y l ih =>
    intro acc hacc
    rw [List.foldl_cons]
    by_cases hy : y ∈ acc
    · rw [if_pos hy]
      exact ih acc hacc
    · rw [if_neg hy]
      refine ih _ ?_
      rw [List.nodup_append]
      exact ⟨hacc, List.nodup_singleton y,
        fun a ha hay => hy ((List.mem_singleton.mp hay) ▸ ha)⟩

theorem mem_dedupJS (x : String) (l : List String) :
    x ∈ dedupJS l ↔ x ∈ l := by
  rw [dedupJS, mem_foldl_dedup]
  simp

theorem dedupJS_nodup (l : List String) : (dedupJS l).Nodup :=
  nodup_foldl_dedup l [] List.nodup_nil

theorem addRejectedOrder_date (s : Option RejectedOrdersData) (nowMs : Int)
    (orderId : String) :
    (addRejectedOrder s nowMs orderId).date = getCurrentDateString nowMs := by
  cases s with
  | none => rfl
  | some d =>
    by_cases h : d.date = getCurrentDateString nowMs <;>
      simp [addRejectedOrder, h]

theorem addRejectedOrder_count_one (s : Option RejectedOrdersData)
    (nowMs : Int) (orderId : String) :
    (addRejectedOrder s nowMs orderId).orderIds.count orderId = 1 := by
  cases s with
  | none => simp [addRejectedOrder]
  | some d =>
    by_cases h : d.date = getCurrentDateString nowMs
    · simp only [addRejectedOrder, if_pos h]
      exact List.count_eq_one_of_mem (dedupJS_nodup _)
        ((mem_dedupJS _ _).mpr (by simp))
    · simp [addRejectedOrder, h]

/-- The ids of a rejection record's successor state: each comes either
from the event just applied or, when the stored date matches the event's
day, from the previous record. -/
theorem addRejectedOrder_mem (s : Option RejectedOrdersData) (nowMs : Int)
    (orderId oid : String)
    (h : oid ∈ (addRejectedOrder s nowMs orderId).orderIds) :
    oid = orderId ∨
      ∃ d0, s = some d0 ∧ d0.date = getCurrentDateString nowMs ∧
        oid ∈ d0.orderIds := by
  cases s with
  | none =>
    simp only [addRejectedOrder, List.mem_singleton] at h
    exact Or.inl h
  | some d =>
    by_cases hd : d.date = getCurrentDateString nowMs
    · simp only [addRejectedOrder, if_pos hd] at h
      rcases List.mem_append.mp ((mem_dedupJS _ _).mp h) with hmem | hmem
      · exact Or.inr ⟨d, rfl, hd, hmem⟩
      · exact Or.inl (List.mem_singleton.mp hmem)
    · simp only [addRejectedOrder, if_neg hd, List.mem_singleton] at h
      exact Or.inl h

/-- Fold the ledger over a list of rejection events `(nowMs, orderId)`
starting from an empty slot, as the singleton storage accumulates
`addRejectedOrder` calls. -/
def runLedger (events : List (Int × String)) : Option RejectedOrdersData :=
  events.foldl (fun s e => some (addRejectedOrder s e.1 e.2)) none

theorem runLedger_aux (events : List (Int × String)) :
    ∀ (s : Option RejectedOrdersData) (d : RejectedOrdersData),
      events.foldl (fun s e => some (addRejectedOrder s e.1 e.2)) s = some d →
      ∀ oid ∈ d.orderIds,
        (∃ e ∈ events, getCurrentDateString e.1 = d.date ∧ e.2 = oid) ∨
        (∃ d0, s = some d0 ∧ d0.date = d.date ∧ oid ∈ d0.orderIds) := by
  induction events with
  | nil =>
    intro s d h oid hoid
    exact Or.inr ⟨d, h, rfl, hoid⟩
  | cons e es ih =>
    intro s d h oid hoid
    rw [List.foldl_cons] at h
    rcases ih _ d h oid hoid with ⟨e', he', hdate, hid⟩ | ⟨d0, hs0, hdate, hmem⟩
    · exact Or.inl ⟨e', List.mem_cons_of_mem _ he', hdate, hid⟩
    · have hd0 : addRejectedOrder s e.1 e.2 = d0 := Option.some.inj hs0
      rcases addRejectedOrder_mem s e.1 e.2 oid (hd0 ▸ hmem) with rfl | ⟨d1, hs1, hd1, hm1⟩
      · refine Or.inl ⟨e, List.mem_cons_self _ _, ?_, rfl⟩
        rw [← hdate, ← hd0, addRejectedOrder_date]
      · refine Or.inr ⟨d1, hs1, ?_, hm1⟩
        rw [hd1, ← hdate, ← hd0, addRejectedOrder_date]

/-- C6: rejecting the same orderId twice on the same calendar day leaves
it in the record exactly once; rejecting on a day different from the
stored record's date replaces the record wholesale with today's single
id; and every record reachable from the empty slot by a sequence of
rejections satisfies the invariant that each of its ids was rejected by
an event on the record's own date. -/
theorem addRejectedOrder_spec :
    (∀ (s : Option RejectedOrdersData) (now1 now2 : Int) (orderId : String),
      getCurrentDateString now1 = getCurrentDateString now2 →
      (addRejectedOrder (some (addRejectedOrder s now1 orderId)) now2
          orderId).orderIds.count orderId = 1) ∧
    (∀ (d : RejectedOrdersData) (nowMs : Int) (orderId : String),
      d.date ≠ getCurrentDateString nowMs →
      addRejectedOrder (some d) nowMs orderId =
        ⟨getCurrentDateString nowMs, [orderId]⟩) ∧
    (∀ (events : List (Int × String)) (d : RejectedOrdersData),
      runLedger events = some d →
      ∀ oid ∈ d.orderIds,
        ∃ e ∈ events, getCurrentDateString e.1 = d.date ∧ e.2 = oid) := by
  refine ⟨?_, ?_, ?_⟩
  · intro s now1 now2 orderId _
    exact addRejectedOrder_count_one _ now2 orderId
  · intro d nowMs orderId hne
    simp [addRejectedOrder, hne]
  · intro events d h oid hoid
    rcases runLedger_aux events none d h oid hoid with hl | ⟨d0, hs0, _, _⟩
    · exact hl
    · exact absurd hs0 (by simp)

/-- Witness for C6: same-day double rejection of "ORD-101" keeps one copy;
next-day rejection of "ORD-102" replaces the day-0 record. -/
theorem addRejectedOrder_spec_witness :
    (addRejectedOrder (some (addRejectedOrder none 0 "ORD-101")) 1
        "ORD-101").orderIds.count "ORD-101" = 1 ∧
    addRejectedOrder (some ⟨0, ["ORD-101"]⟩) msPerDay "ORD-102" =
      ⟨1, ["ORD-102"]⟩ ∧
    (∃ e ∈ [((0 : Int), "ORD-101")],
      getCurrentDateString e.1 = (0 : Int) ∧ e.2 = "ORD-101") :=
  ⟨addRejectedOrder_spec.1 none 0 1 "ORD-101" (by decide),
   by
     have h := addRejectedOrder_spec.2.1 ⟨0, ["ORD-101"]⟩ msPerDay "ORD-102"
       (by decide)
     rw [h]
     decide,
   addRejectedOrder_spec.2.2 [((0 : Int), "ORD-101")] ⟨0, ["ORD-101"]⟩
     (by decide) "ORD-101" (by decide)⟩
